import Mathlib

/-
Verification of the core algorithms of the fonts-previewer GUI
(src/main.py): style-variant deduplication (FontLoader._filter_useable_styles),
the slider-to-weight mapping (MainWindow._slider_value_to_weight,
MainWindow._update_font_weight), the preview line-wrapping and draw loop
(FontPreviewWidget._update_cache), and the preview pixmap cache discipline
(FontPreviewWidget.set_font_info / set_font_properties / paintEvent).

Python strings are modelled as Lean `String` / `List Char`; Python ints as
`Int` (or `Nat` where the source value is manifestly non-negative); Qt text
metrics as an additive per-character advance function `Char → Nat`.
-/

set_option maxHeartbeats 1000000

namespace FontPreviewer

/-! ### Python string primitives used by the source -/

/-- Model of `needle` being a prefix of `hay` (character lists). -/
def isPrefixChars : List Char → List Char → Bool
  | [], _ => true
  | _ :: _, [] => false
  | a :: as, b :: bs => a == b && isPrefixChars as bs

/-- Model of Python `needle in hay` substring containment on strings. -/
def containsSub (needle : List Char) : List Char → Bool
  | [] => isPrefixChars needle []
  | c :: rest => isPrefixChars needle (c :: rest) || containsSub needle rest

/-- Model of Python `str.lower()` (ASCII case folding, which is all the
source's style keywords need). -/
def lowerL (s : String) : List Char := s.data.map Char.toLower

/-! ### FontLoader._filter_useable_styles (src/main.py lines 79-109) -/

/-- Test for `'regular' in lower_style` (line 91). -/
def regSub (s : String) : Bool := containsSub "regular".data (lowerL s)

/-- Test for `'bold' in lower_style` (lines 94, 98). -/
def boldSub (s : String) : Bool := containsSub "bold".data (lowerL s)

/-- Test for `'italic' in lower_style` (lines 94, 102). -/
def italSub (s : String) : Bool := containsSub "italic".data (lowerL s)

/-- Test for `lower_style in ['normal', 'book']` (line 91). -/
def isNormalOrBook (s : String) : Bool :=
  lowerL s == "normal".data || lowerL s == "book".data

/-- Mutable loop state of `_filter_useable_styles`: the accumulator list and
the four found-flags (lines 81-86). -/
structure DedupState where
  useful : List String
  regular_found : Bool
  bold_found : Bool
  italic_found : Bool
  bold_italic_found : Bool
deriving Repr, DecidableEq

/-- One iteration of the `for style in styles` loop (lines 88-107). -/
def classifyStep (st : DedupState) (style : String) : DedupState :=
  if regSub style || (!st.regular_found && isNormalOrBook style) then
    { st with useful := st.useful ++ [style], regular_found := true }
  else if boldSub style && italSub style then
    if !st.bold_italic_found then
      { st with useful := st.useful ++ [style], bold_italic_found := true }
    else st
  else if boldSub style then
    if !st.bold_found then
      { st with useful := st.useful ++ [style], bold_found := true }
    else st
  else if italSub style then
    if !st.italic_found then
      { st with useful := st.useful ++ [style], italic_found := true }
    else st
  else if st.useful.length < 4 then
    { st with useful := st.useful ++ [style] }
  else st

/-- Model of `FontLoader._filter_useable_styles` (lines 79-109): fold the
loop over the input styles and return `useful_styles[:4]`. -/
def filter_useable_styles (styles : List String) : List String :=
  ((styles.foldl classifyStep ⟨[], false, false, false, false⟩).useful).take 4

/-! ### MainWindow weight mapping (src/main.py lines 668-690) -/

/-- The `weights` list of `_slider_value_to_weight` (lines 687-688), with
QFont.Weight enumerators replaced by their Qt 6 numeric values:
Thin=100, ExtraLight=200, Light=300, Normal=400, Medium=500, DemiBold=600,
Bold=700, ExtraBold=800, Black=900. -/
def weights : List Nat := [100, 200, 300, 400, 500, 600, 700, 800, 900]

/-- Model of `MainWindow._slider_value_to_weight` (lines 685-690).
The source computes `index = int(value / 11.11)` in double precision; for
every slider value 0 ≤ value ≤ 99 the quotient is at least 0.009 away from
any integer, so double rounding cannot cross a boundary and the result
equals the exact floor `value * 100 / 1111`. -/
def slider_value_to_weight (value : Nat) : Nat :=
  weights.getD (min (value * 100 / 1111) (weights.length - 1)) 0

/-- Model of the label mapping of `MainWindow._update_font_weight`
(lines 668-681): the insertion-ordered dict of disjoint ranges is
equivalent to this chain of half-open interval tests; values outside every
range fall to the `for ... else` branch, `"Normal"`. -/
def weight_label_for (value : Nat) : String :=
  if value < 12 then "Thin"
  else if value < 25 then "Extra Light"
  else if value < 38 then "Light"
  else if value < 50 then "Normal"
  else if value < 62 then "Medium"
  else if value < 75 then "Semi Bold"
  else if value < 88 then "Bold"
  else if value < 100 then "Extra Bold"
  else "Normal"

/-! ### FontPreviewWidget._update_cache: line wrapping (src/main.py lines 166-201) -/

/-- Whitespace characters recognised by Python `str.split()` with no
argument (the source's texts only involve these). -/
def isSpaceChar (c : Char) : Bool :=
  c == ' ' || c == '\n' || c == '\t' || c == '\r'

/-- Additive text-metrics model: `advL cw l` is the measured horizontal
advance of the characters `l` under the per-character advance `cw`
(models `QFontMetrics.horizontalAdvance`). -/
def advL (cw : Char → Nat) (l : List Char) : Nat := (l.map cw).sum

/-- Model of `text.replace('\n', ' \n ')` (line 174). -/
def replaceNL (l : List Char) : List Char :=
  l.flatMap fun c => if c == '\n' then [' ', '\n', ' '] else [c]

/-- Worker for `pySplit`: `cur` is the reversed current token. -/
def pySplitGo : List Char → List Char → List (List Char)
  | cur, [] => if cur.isEmpty then [] else [cur.reverse]
  | cur, c :: rest =>
    if isSpaceChar c then
      if cur.isEmpty then pySplitGo [] rest
      else cur.reverse :: pySplitGo [] rest
    else pySplitGo (c :: cur) rest

/-- Model of Python `str.split()` with no argument (line 174): split on
runs of whitespace, discarding empty tokens. -/
def pySplit (l : List Char) : List (List Char) := pySplitGo [] l

/-- Model of Python `str.strip()` (lines 178, 197-198): drop whitespace
from both ends. -/
def pyStrip (l : List Char) : List Char :=
  ((l.dropWhile isSpaceChar).reverse.dropWhile isSpaceChar).reverse

/-- Worker for `splitNL`. -/
def splitNLGo : List Char → List Char → List (List Char)
  | cur, [] => [cur.reverse]
  | cur, c :: rest =>
    if c == '\n' then cur.reverse :: splitNLGo [] rest
    else splitNLGo (c :: cur) rest

/-- Model of `text.split('\n')` (line 201): split on every newline, keeping
empty segments. -/
def splitNL (l : List Char) : List (List Char) := splitNLGo [] l

/-- Wrapping loop state: the completed `lines` and `current_line`
(lines 171, 175). -/
structure WrapSt where
  lines : List (List Char)
  cur : List Char
deriving Repr, DecidableEq

/-- One iteration of the `for word in words` wrapping loop
(lines 176-195), parameterised by the advance function and the available
width (`width` may be negative since the source computes
`rect.width() - 20` on a Python int). -/
def wrapStep (cw : Char → Nat) (width : Int) (st : WrapSt) (word : List Char) : WrapSt :=
  if word == ['\n'] then
    let lines1 := if (pyStrip st.cur).isEmpty then st.lines else st.lines ++ [pyStrip st.cur]
    { lines := lines1 ++ [[]], cur := [] }
  else
    let test_line := st.cur ++ (if st.cur.isEmpty then [] else [' ']) ++ word
    if (advL cw test_line : Int) > width then
      let lines1 := if st.cur.isEmpty then st.lines else st.lines ++ [st.cur]
      if (advL cw word : Int) > width then
        { lines := lines1 ++ [word], cur := [] }
      else
        { lines := lines1, cur := word }
    else
      { st with cur := test_line }

/-- The trailing flush after the wrapping loop (lines 197-198). -/
def wrapFinish (st : WrapSt) : List (List Char) :=
  if (pyStrip st.cur).isEmpty then st.lines else st.lines ++ [pyStrip st.cur]

/-- The greedy word-wrap pass (lines 173-198). -/
def wrapText (cw : Char → Nat) (width : Int) (text : List Char) : List (List Char) :=
  wrapFinish ((pySplit (replaceNL text)).foldl (wrapStep cw width) ⟨[], []⟩)

/-- The full line-breaking step of `_update_cache` (lines 171-201): wrap
greedily when the whole text overflows `width`, otherwise split on
newlines verbatim. -/
def computeLines (cw : Char → Nat) (width : Int) (text : List Char) : List (List Char) :=
  if (advL cw text : Int) > width then wrapText cw width text
  else splitNL text

/-! ### FontPreviewWidget._update_cache: draw loop and label placement (lines 203-258) -/

/-- A draw command recorded on the pixmap: either a preview-text line drawn
with the main font (line 226) or a font-name label drawn with the small
font (lines 242, 252, 254). -/
inductive DrawCmd where
  | line (x y : Int) (text : List Char)
  | label (x y : Int) (text : List Char)
deriving Repr, DecidableEq

/-- Inputs of one `_update_cache` pass: the widget fields and the metrics
of the main font (`cw`, `lineSpacing`, `ascent`) and of the 4pt-smaller
name font (`scw`, `smallAscent`). -/
structure DrawParams where
  family : List Char
  style : List Char
  cw : Char → Nat
  scw : Char → Nat
  lineSpacing : Int
  ascent : Int
  smallAscent : Int
  rectW : Int
  rectH : Int

/-- The ellipsis marker appended while shortening (line 249). -/
def ellipsisChars : List Char := ['.', '.', '.']

/-- The `font_name = f"{family} - {style}"` composite (line 229). -/
def fontNameOf (p : DrawParams) : List Char := p.family ++ (" - ".data) ++ p.style

/-- The `name_x` right-aligned label position (lines 236-237). -/
def nameX (p : DrawParams) : Int := p.rectW - (advL p.scw (fontNameOf p) : Int) - 10

/-- The `preview_text_end` of the current line (line 240). -/
def previewTextEnd (p : DrawParams) (line : List Char) : Int :=
  10 + (advL p.cw line : Int)

/-- The `available_width = max(0, name_x - preview_text_end - 20)` of the
collision branch (line 245). -/
def availableWidth (p : DrawParams) (line : List Char) : Int :=
  max 0 (nameX p - previewTextEnd p line - 20)

/-- The `while` shortening loop (lines 248-250): drop trailing characters
while the ellipsised name overflows `aw` and more than 3 characters
remain. -/
def shortenName (scw : Char → Nat) (aw : Int) (name : List Char) : List Char :=
  if _h : (advL scw (name ++ ellipsisChars) : Int) > aw ∧ name.length > 3 then
    shortenName scw aw name.dropLast
  else name
termination_by name.length
decreasing_by
  simp only [List.length_dropLast]
  omega

/-- The per-line font-name label placement (lines 228-254): returns the
label draw command, or `none` when the label is omitted. -/
def labelCmdFor (p : DrawParams) (line : List Char) (y : Int) : Option DrawCmd :=
  if nameX p > previewTextEnd p line + 20 then
    some (.label (nameX p) (y - (p.ascent - p.smallAscent)) (fontNameOf p))
  else
    if availableWidth p line > 30 then
      let shortened := shortenName p.scw (availableWidth p line) (fontNameOf p)
      if shortened.length < (fontNameOf p).length then
        some (.label (previewTextEnd p line + 20) (y - (p.ascent - p.smallAscent))
          (shortened ++ ellipsisChars))
      else
        some (.label (previewTextEnd p line + 20) (y - (p.ascent - p.smallAscent))
          (fontNameOf p))
    else none

/-- The `for i, line in enumerate(lines)` draw loop (lines 221-258):
stop at the first line whose bottom would exceed the widget height
(line 222-223), otherwise draw the line at `(10, y)` and then attempt the
label placement; every line's height is `metrics.lineSpacing()`. -/
def drawLinesGo (p : DrawParams) : List (List Char) → Int → List DrawCmd
  | [], _ => []
  | line :: rest, y =>
    if y - p.ascent + p.lineSpacing > p.rectH then []
    else
      DrawCmd.line 10 y line ::
        ((labelCmdFor p line y).toList ++ drawLinesGo p rest (y + p.lineSpacing))

/-- One full (successful) `_update_cache` render pass (lines 154-261) as
the list of draw commands recorded on the fresh pixmap: compute the
wrapped lines for `width = rect.width() - 20` (line 168), the total height
(lines 204-209, every line height is `lineSpacing`), the start baseline
(lines 212-218) and then run the draw loop. -/
def updateCachePure (p : DrawParams) (text : List Char) : List DrawCmd :=
  let width : Int := p.rectW - 20
  let lines := computeLines p.cw width text
  let total_height : Int := lines.length * p.lineSpacing
  let y0 : Int := if total_height > p.rectH - 20 then p.ascent else 10 + p.ascent
  drawLinesGo p lines y0

/-- Predicate selecting the font-name label commands. -/
def isLabelCmd : DrawCmd → Bool
  | .label _ _ _ => true
  | .line _ _ _ => false

/-- The y coordinate of a draw command. -/
def cmdY : DrawCmd → Int
  | .label _ y _ => y
  | .line _ y _ => y

/-- The text of a draw command. -/
def cmdText : DrawCmd → List Char
  | .label _ _ t => t
  | .line _ _ t => t

/-- Number of label draw commands in a pass. -/
def countLabels (cmds : List DrawCmd) : Nat := cmds.countP isLabelCmd

/-- Number of preview-text line draw commands in a pass. -/
def countLineDraws (cmds : List DrawCmd) : Nat := cmds.countP (fun c => !isLabelCmd c)

/-- Boolean check that every label command sits at vertical offset `δ`
above some drawn line's baseline in the same pass. -/
def labelsPaired (δ : Int) (cmds : List DrawCmd) : Bool :=
  cmds.all fun c =>
    !isLabelCmd c || cmds.any fun d => !isLabelCmd d && (cmdY c == cmdY d - δ)

/-! ### FontPreviewWidget cache discipline (src/main.py lines 115-150) -/

/-- The value tuple that a render pass depends on (the spec's
`PreviewRequest`): the widget fields read by `_update_cache` plus the
widget bounds `self.rect()`. -/
structure PreviewRequest where
  family : String
  styleName : String
  text : String
  size : Nat
  color : Nat × Nat × Nat
  weight : Nat
  boundsW : Nat
  boundsH : Nat
deriving Repr, DecidableEq

/-- The mutable fields of `FontPreviewWidget` that drive rendering
(lines 119-125). -/
structure WidgetState (Pix : Type) where
  font_family : String
  font_style : String
  text : String
  font_size : Nat
  font_color : Nat × Nat × Nat
  font_weight : Nat
  cache_pixmap : Option Pix

/-- The `__init__` field values (lines 119-125); 400 is
QFont.Weight.Normal. -/
def initWidgetState (Pix : Type) : WidgetState Pix :=
  { font_family := ""
    font_style := ""
    text := "字体预览样本 ABC abc 123"
    font_size := 24
    font_color := (0, 0, 0)
    font_weight := 400
    cache_pixmap := none }

/-- Model of `set_font_info` (lines 127-133): update the font fields and
invalidate the cached pixmap unconditionally. -/
def set_font_info (s : WidgetState Pix) (family style text : String) : WidgetState Pix :=
  { s with font_family := family, font_style := style, text := text, cache_pixmap := none }

/-- Model of `set_font_properties` (lines 135-141): update the property
fields and invalidate the cached pixmap unconditionally. -/
def set_font_properties (s : WidgetState Pix) (size : Nat) (color : Nat × Nat × Nat)
    (weight : Nat) : WidgetState Pix :=
  { s with font_size := size, font_color := color, font_weight := weight,
           cache_pixmap := none }

/-- The request a render pass reads from the widget state and the current
widget bounds. -/
def requestOf (s : WidgetState Pix) (rect : Nat × Nat) : PreviewRequest :=
  { family := s.font_family
    styleName := s.font_style
    text := s.text
    size := s.font_size
    color := s.font_color
    weight := s.font_weight
    boundsW := rect.1
    boundsH := rect.2 }

/-- Result of one `paintEvent` pass: the widget state afterwards, the
pixmap actually painted to the screen, and how many times the render
function (`_update_cache`) ran during the pass. -/
structure PaintResult (Pix : Type) where
  state : WidgetState Pix
  drawn : Option Pix
  renders : Nat

/-- Model of `paintEvent` (lines 143-150) with a successful render
function: when `cache_pixmap` is `None` invoke the renderer on the current
request and store the result, otherwise paint the stored pixmap
unchanged. -/
def paintEvent (render : PreviewRequest → Pix) (s : WidgetState Pix)
    (rect : Nat × Nat) : PaintResult Pix :=
  match s.cache_pixmap with
  | none =>
    let p := render (requestOf s rect)
    ⟨{ s with cache_pixmap := some p }, some p, 1⟩
  | some p => ⟨s, some p, 0⟩

/-! ### Failure semantics of _update_cache (src/main.py lines 152-265) -/

/-- The main-font metrics produced by `QFontMetrics(font)` (line 167). -/
structure MainMetrics where
  cw : Char → Nat
  lineSpacing : Int
  ascent : Int

/-- The small-font metrics produced by `QFontMetrics(small_font)`
(line 233). -/
structure SmallMetrics where
  scw : Char → Nat
  smallAscent : Int

/-- Model of the `try/except` body of `_update_cache` (lines 153-265):
the two Qt metrics acquisitions are the fallible external calls; if either
raises, the `except` clause logs the error and leaves `cache_pixmap`
as `None` (no partial draw survives, since the partially painted pixmap is
discarded); otherwise the pixmap holds the draw commands of the pure
pass.  Returns `(cache_pixmap, log)`. -/
def updateCacheTry (E : Type) (metricsE : Except E MainMetrics)
    (smallE : Except E SmallMetrics) (family style text : List Char)
    (rectW rectH : Int) : Option (List DrawCmd) × List E :=
  match metricsE with
  | .error e => (none, [e])
  | .ok m =>
    match smallE with
    | .error e => (none, [e])
    | .ok sm =>
      (some (updateCachePure
        ⟨family, style, m.cw, sm.scw, m.lineSpacing, m.ascent, sm.smallAscent,
         rectW, rectH⟩ text), [])

/-! ### Auxiliary predicates used by the theorems -/

/-- A wrapped line is admissible when it fits the available width, or is a
single whitespace-free input token that alone exceeds the width. -/
def goodLine (cw : Char → Nat) (width : Int) (toks : List (List Char)) (l : List Char) : Prop :=
  (advL cw l : Int) ≤ width ∨ (l ∈ toks ∧ (advL cw l : Int) > width)

/-- Invariant of the wrapping loop: every completed line is admissible and
`current_line` is empty or fits the width. -/
def wrapInv (cw : Char → Nat) (width : Int) (toks : List (List Char)) (st : WrapSt) : Prop :=
  (∀ l ∈ st.lines, goodLine cw width toks l) ∧
    (st.cur = [] ∨ (advL cw st.cur : Int) ≤ width)

/-- Numeric value of a found-flag: a filled bucket accounts for at most one
accepted name. -/
def b2n (b : Bool) : Nat := if b then 1 else 0

/-- Style names classified into the BoldItalic bucket: they reach line 94's
branch (no `'regular'` substring, both `'bold'` and `'italic'`). -/
def isBoldItalicName (s : String) : Bool := !regSub s && (boldSub s && italSub s)

/-- Style names classified into the Bold bucket (line 98's branch). -/
def isBoldOnlyName (s : String) : Bool := !regSub s && (boldSub s && !italSub s)

/-- Style names classified into the Italic bucket (line 102's branch). -/
def isItalicOnlyName (s : String) : Bool := !regSub s && (!boldSub s && italSub s)

/-- Count invariant of the dedup loop: each of the BoldItalic/Bold/Italic
buckets has contributed at most as many names as its found-flag allows. -/
def dedupCountInv (st : DedupState) : Prop :=
  st.useful.countP isBoldItalicName ≤ b2n st.bold_italic_found ∧
    st.useful.countP isBoldOnlyName ≤ b2n st.bold_found ∧
    st.useful.countP isItalicOnlyName ≤ b2n st.italic_found

/-- Concrete widget configuration for the multi-line preview pass: a short
family/style name on a wide widget, so the right-aligned label clears every
wrapped line. -/
def cexDrawParams : DrawParams :=
  { family := "A".data, style := "B".data, cw := fun _ => 10, scw := fun _ => 1,
    lineSpacing := 10, ascent := 5, smallAscent := 3, rectW := 200, rectH := 100 }

/-- Concrete widget configuration whose long font name collides with the
preview line (`name_x` is far to the left of the line end). -/
def collisionParamsA : DrawParams :=
  { family := "Family".data, style := "Style".data, cw := fun _ => 7, scw := fun _ => 9,
    lineSpacing := 12, ascent := 8, smallAscent := 6, rectW := 40, rectH := 80 }

/-- A second concrete colliding configuration. -/
def collisionParamsB : DrawParams :=
  { family := "Averylongfontfamilyname".data, style := "Italic".data, cw := fun _ => 5,
    scw := fun _ => 6, lineSpacing := 15, ascent := 11, smallAscent := 8,
    rectW := 120, rectH := 200 }

/-- The widget state after one paint pass at bounds (300, 60) starting from
the freshly constructed widget, with the identity render function (the
pixmap is modelled by the request it was rendered for). -/
def c5s1 : WidgetState PreviewRequest :=
  (paintEvent (fun r => r) (initWidgetState PreviewRequest) (300, 60)).state

/-! ## Theorems -/

/-! ### Metrics helper lemmas -/

theorem advL_cons (cw : Char → Nat) (a : Char) (l : List Char) :
    advL cw (a :: l) = cw a + advL cw l := by
  simp [advL]

theorem advL_append (cw : Char → Nat) (l1 l2 : List Char) :
    advL cw (l1 ++ l2) = advL cw l1 + advL cw l2 := by
  simp [advL]

theorem advL_reverse (cw : Char → Nat) (l : List Char) :
    advL cw l.reverse = advL cw l := by
  simp [advL, List.sum_reverse]

theorem advL_dropWhile_le (cw : Char → Nat) (p : Char → Bool) (l : List Char) :
    advL cw (l.dropWhile p) ≤ advL cw l := by
  induction l with
  | nil => exact Nat.le_refl _
  | cons a l ih =>
    rw [List.dropWhile_cons]
    split
    · exact Nat.le_trans ih (by rw [advL_cons]; omega)
    · exact Nat.le_refl _

theorem advL_pyStrip_le (cw : Char → Nat) (l : List Char) :
    advL cw (pyStrip l) ≤ advL cw l := by
  unfold pyStrip
  rw [advL_reverse]
  refine Nat.le_trans (advL_dropWhile_le cw _ _) ?_
  rw [advL_reverse]
  exact advL_dropWhile_le cw _ _

/-! ### Tokenisation lemmas -/

theorem pySplitGo_tokens : ∀ (l cur : List Char),
    (∀ c ∈ cur, isSpaceChar c = false) →
    ∀ t ∈ pySplitGo cur l, t ≠ [] ∧ ∀ c ∈ t, isSpaceChar c = false := by
  intro l
  induction l with
  | nil =>
    intro cur hcur t ht
    unfold pySplitGo at ht
    split at ht
    · simp at ht
    · rename_i hne
      simp only [List.mem_singleton] at ht
      subst ht
      refine ⟨?_, fun c hc => hcur c (List.mem_reverse.mp hc)⟩
      intro hrev
      rw [List.reverse_eq_nil_iff] at hrev
      subst hrev
      exact hne rfl
  | cons a l ih =>
    intro cur hcur t ht
    unfold pySplitGo at ht
    split at ht
    · split at ht
      · exact ih [] (by simp) t ht
      · rename_i hsp hne
        rcases List.mem_cons.mp ht with h | h
        · subst h
          refine ⟨?_, fun c hc => hcur c (List.mem_reverse.mp hc)⟩
          intro hrev
          rw [List.reverse_eq_nil_iff] at hrev
          subst hrev
          exact hne rfl
        · exact ih [] (by simp) t h
    · rename_i hsp
      refine ih (a :: cur) ?_ t ht
      intro c hc
      rcases List.mem_cons.mp hc with h | h
      · subst h
        exact Bool.eq_false_iff.mpr hsp
      · exact hcur c h

theorem pySplit_tokens (l : List Char) :
    ∀ t ∈ pySplit l, t ≠ [] ∧ ∀ c ∈ t, isSpaceChar c = false :=
  pySplitGo_tokens l [] (by simp)

/-! ### Wrap-loop invariant (claim C8) -/

theorem wrapStep_inv (cw : Char → Nat) (width : Int) (toks : List (List Char))
    (st : WrapSt) (word : List Char) (hmem : word ∈ toks)
    (hwf : ∀ c ∈ word, isSpaceChar c = false)
    (hinv : wrapInv cw width toks st) :
    wrapInv cw width toks (wrapStep cw width st word) := by
  have hnl : ¬ ((word == ['\n']) = true) := by
    intro hw
    have hword : word = ['\n'] := eq_of_beq hw
    have := hwf '\n' (by rw [hword]; exact List.mem_singleton.mpr rfl)
    simp [isSpaceChar] at this
  obtain ⟨h1, h2⟩ := hinv
  unfold wrapStep
  rw [if_neg hnl]
  dsimp only
  by_cases hce : st.cur.isEmpty = true
  · have hcur : st.cur = [] := by
      cases hc : st.cur with
      | nil => rfl
      | cons a as => rw [hc] at hce; simp at hce
    simp only [if_pos hce]
    rw [hcur]
    simp only [List.nil_append, List.append_nil]
    split
    · rename_i hover
      constructor
      · intro l hl
        rcases List.mem_append.mp hl with h | h
        · exact h1 l h
        · simp only [List.mem_singleton] at h
          subst h
          exact Or.inr ⟨hmem, hover⟩
      · exact Or.inl rfl
    · rename_i hfits
      refine ⟨h1, Or.inr ?_⟩
      show (advL cw word : Int) ≤ width
      omega
  · simp only [if_neg hce]
    have hcw : (advL cw st.cur : Int) ≤ width := by
      rcases h2 with h2 | h2
      · rw [h2] at hce
        exact absurd rfl hce
      · exact h2
    split
    · rename_i hover
      split
      · rename_i hwword
        constructor
        · intro l hl
          rcases List.mem_append.mp hl with h | h
          · rcases List.mem_append.mp h with h' | h'
            · exact h1 l h'
            · simp only [List.mem_singleton] at h'
              subst h'
              exact Or.inl hcw
          · simp only [List.mem_singleton] at h
            subst h
            exact Or.inr ⟨hmem, hwword⟩
        · exact Or.inl rfl
      · rename_i hwword
        constructor
        · intro l hl
          rcases List.mem_append.mp hl with h | h
          · exact h1 l h
          · simp only [List.mem_singleton] at h
            subst h
            exact Or.inl hcw
        · refine Or.inr ?_
          show (advL cw word : Int) ≤ width
          omega
    · rename_i hfits
      refine ⟨h1, Or.inr ?_⟩
      show (advL cw (st.cur ++ [' '] ++ word) : Int) ≤ width
      omega

theorem wrapFold_inv (cw : Char → Nat) (width : Int) (toks : List (List Char)) :
    ∀ ws : List (List Char),
      (∀ w ∈ ws, w ∈ toks ∧ ∀ c ∈ w, isSpaceChar c = false) →
      ∀ st, wrapInv cw width toks st →
        wrapInv cw width toks (ws.foldl (wrapStep cw width) st) := by
  intro ws
  induction ws with
  | nil => exact fun _ st h => h
  | cons w ws ih =>
    intro hws st h
    rw [List.foldl_cons]
    exact ih (fun x hx => hws x (List.mem_cons_of_mem _ hx)) _
      (wrapStep_inv cw width toks st w (hws w (List.mem_cons_self _ _)).1
        (hws w (List.mem_cons_self _ _)).2 h)

theorem wrapText_good (cw : Char → Nat) (width : Int) (text : List Char) :
    ∀ l ∈ wrapText cw width text, goodLine cw width (pySplit (replaceNL text)) l := by
  have htoks := pySplit_tokens (replaceNL text)
  have hinv := wrapFold_inv cw width (pySplit (replaceNL text))
    (pySplit (replaceNL text)) (fun w hw => ⟨hw, (htoks w hw).2⟩)
    ⟨[], []⟩ ⟨by simp, Or.inl rfl⟩
  unfold wrapText wrapFinish
  split
  · exact hinv.1
  · rename_i hne
    intro l hl
    rcases List.mem_append.mp hl with h | h
    · exact hinv.1 l h
    · simp only [List.mem_singleton] at h
      subst h
      rcases hinv.2 with hc | hc
      · exact absurd (by rw [hc]; rfl) hne
      · refine Or.inl ?_
        have := advL_pyStrip_le cw
          ((pySplit (replaceNL text)).foldl (wrapStep cw width) ⟨[], []⟩).cur
        omega

/-- C8: for every text whose full measured advance exceeds the available
width, every line produced by the greedy word-wrap pass fits within the
width, except a line that is a single (whitespace-free) input token whose
own advance alone exceeds the width, emitted verbatim as the whole line. -/
theorem wrap_lines_fit_or_overlong_token (cw : Char → Nat) (width : Int)
    (text : List Char) (h : (advL cw text : Int) > width) :
    ∀ line ∈ computeLines cw width text,
      (advL cw line : Int) ≤ width ∨
        (line ∈ pySplit (replaceNL text) ∧ (advL cw line : Int) > width) := by
  unfold computeLines
  rw [if_pos h]
  exact fun l hl => wrapText_good cw width text l hl

/-- Witness for `wrap_lines_fit_or_overlong_token` at a concrete overflowing
text. -/
theorem wrap_lines_fit_or_overlong_token_witness :
    ((advL (fun _ => 10) "aa bb".data : Int) > 15) ∧
      (∀ line ∈ computeLines (fun _ => 10) 15 "aa bb".data,
        (advL (fun _ => 10) line : Int) ≤ 15 ∨
          (line ∈ pySplit (replaceNL "aa bb".data) ∧
            (advL (fun _ => 10) line : Int) > 15)) :=
  ⟨by decide, wrap_lines_fit_or_overlong_token (fun _ => 10) 15 "aa bb".data (by decide)⟩

/-! ### Weight mapping (claim C1) -/

/-- C1: evaluation of the slider-to-weight mapping at the disputed input.
Inputs 0 and 99 hit the lightest (Thin = 100) and heaviest (Black = 900)
buckets as claimed, but input 50 lands in the Medium bucket (500), not
Normal (400); the label mapping of `_update_font_weight` likewise shows
"Medium" at 50, contradicting the code's own default
(`setValue(50)  # Normal` with initial label "Normal"). -/
theorem slider_weight_mapping_at_0_50_99 :
    slider_value_to_weight 0 = 100 ∧ slider_value_to_weight 99 = 900 ∧
      slider_value_to_weight 50 = 500 ∧ slider_value_to_weight 50 ≠ 400 ∧
      weight_label_for 50 = "Medium" := by
  decide

/-! ### Style deduplication (claims C2, C3, C7) -/

/-- C2 counterexample: on the spec's example input the deduplication does
not return the claimed bucket-priority order. -/
theorem filter_styles_example_order_ne_spec :
    filter_useable_styles ["Regular", "Bold", "Italic", "Bold Italic", "Black"] ≠
      ["Regular", "Bold Italic", "Bold", "Italic"] := by
  decide

/-- C2 amended: the deduplication keeps the four recognised styles of the
example but appends them in input scan order, and drops "Black". -/
theorem filter_styles_example_scan_order :
    filter_useable_styles ["Regular", "Bold", "Italic", "Bold Italic", "Black"] =
      ["Regular", "Bold", "Italic", "Bold Italic"] := by
  decide

/-- C3 counterexample: the Regular bucket does not enforce a single winner;
an input with two names containing "regular" puts both in the output. -/
theorem filter_styles_two_regular_winners :
    ¬ ((filter_useable_styles ["Regular", "Regular"]).countP (fun s => regSub s) ≤ 1) := by
  decide

theorem countP_snoc_false (p : String → Bool) (l : List String) (s : String)
    (h : p s = false) : (l ++ [s]).countP p = l.countP p := by
  simp [List.countP_append, List.countP_cons, h]

theorem countP_snoc_true (p : String → Bool) (l : List String) (s : String)
    (h : p s = true) : (l ++ [s]).countP p = l.countP p + 1 := by
  simp [List.countP_append, List.countP_cons, h]

theorem classifyStep_counts (st : DedupState) (s : String)
    (hinv : dedupCountInv st) : dedupCountInv (classifyStep st s) := by
  obtain ⟨h1, h2, h3⟩ := hinv
  unfold classifyStep
  split
  · rename_i hcond
    simp only [Bool.or_eq_true, Bool.and_eq_true] at hcond
    have hfalse : isBoldItalicName s = false ∧ isBoldOnlyName s = false ∧
        isItalicOnlyName s = false := by
      rcases hcond with hreg | ⟨_, hnb⟩
      · simp [isBoldItalicName, isBoldOnlyName, isItalicOnlyName, hreg]
      · simp only [isNormalOrBook, Bool.or_eq_true] at hnb
        have hbital : boldSub s = false ∧ italSub s = false := by
          rcases hnb with hn | hn
          · have he : lowerL s = "normal".data := eq_of_beq hn
            constructor
            · unfold boldSub
              rw [he]
              decide
            · unfold italSub
              rw [he]
              decide
          · have he : lowerL s = "book".data := eq_of_beq hn
            constructor
            · unfold boldSub
              rw [he]
              decide
            · unfold italSub
              rw [he]
              decide
        simp [isBoldItalicName, isBoldOnlyName, isItalicOnlyName,
          hbital.1, hbital.2]
    exact ⟨by rw [countP_snoc_false _ _ _ hfalse.1]; exact h1,
      by rw [countP_snoc_false _ _ _ hfalse.2.1]; exact h2,
      by rw [countP_snoc_false _ _ _ hfalse.2.2]; exact h3⟩
  · rename_i hcond1
    have hreg : regSub s = false := (Bool.or_eq_false_iff.mp
      (Bool.eq_false_iff.mpr hcond1)).1
    split
    · rename_i hcond2
      simp only [Bool.and_eq_true] at hcond2
      have hbi : isBoldItalicName s = true := by
        simp [isBoldItalicName, hreg, hcond2.1, hcond2.2]
      have hbo : isBoldOnlyName s = false := by
        simp [isBoldOnlyName, hcond2.2]
      have hio : isItalicOnlyName s = false := by
        simp [isItalicOnlyName, hcond2.1]
      split
      · rename_i hflag
        simp only [Bool.not_eq_true'] at hflag
        have hz : st.useful.countP isBoldItalicName = 0 := by
          have hb : b2n st.bold_italic_found = 0 := by simp [b2n, hflag]
          omega
        refine ⟨?_, ?_, ?_⟩
        · rw [countP_snoc_true _ _ _ hbi, hz]
          simp [b2n]
        · rw [countP_snoc_false _ _ _ hbo]
          exact h2
        · rw [countP_snoc_false _ _ _ hio]
          exact h3
      · exact ⟨h1, h2, h3⟩
    · rename_i hcond2
      have hnotbi : (boldSub s && italSub s) = false := Bool.eq_false_iff.mpr hcond2
      split
      · rename_i hcond3
        have hital : italSub s = false := by
          rcases Bool.and_eq_false_iff.mp hnotbi with h | h
          · rw [h] at hcond3
            simp at hcond3
          · exact h
        have hbi : isBoldItalicName s = false := by
          simp [isBoldItalicName, hital]
        have hbo : isBoldOnlyName s = true := by
          simp [isBoldOnlyName, hreg, hcond3, hital]
        have hio : isItalicOnlyName s = false := by
          simp [isItalicOnlyName, hital]
        split
        · rename_i hflag
          simp only [Bool.not_eq_true'] at hflag
          have hz : st.useful.countP isBoldOnlyName = 0 := by
            have hb : b2n st.bold_found = 0 := by simp [b2n, hflag]
            omega
          refine ⟨?_, ?_, ?_⟩
          · rw [countP_snoc_false _ _ _ hbi]
            exact h1
          · rw [countP_snoc_true _ _ _ hbo, hz]
            simp [b2n]
          · rw [countP_snoc_false _ _ _ hio]
            exact h3
        · exact ⟨h1, h2, h3⟩
      · rename_i hcond3
        have hbold : boldSub s = false := Bool.eq_false_iff.mpr hcond3
        split
        · rename_i hcond4
          have hbi : isBoldItalicName s = false := by
            simp [isBoldItalicName, hbold]
          have hbo : isBoldOnlyName s = false := by
            simp [isBoldOnlyName, hbold]
          have hio : isItalicOnlyName s = true := by
            simp [isItalicOnlyName, hreg, hbold, hcond4]
          split
          · rename_i hflag
            simp only [Bool.not_eq_true'] at hflag
            have hz : st.useful.countP isItalicOnlyName = 0 := by
              have hb : b2n st.italic_found = 0 := by simp [b2n, hflag]
              omega
            refine ⟨?_, ?_, ?_⟩
            · rw [countP_snoc_false _ _ _ hbi]
              exact h1
            · rw [countP_snoc_false _ _ _ hbo]
              exact h2
            · rw [countP_snoc_true _ _ _ hio, hz]
              simp [b2n]
          · exact ⟨h1, h2, h3⟩
        · rename_i hcond4
          have hital : italSub s = false := Bool.eq_false_iff.mpr hcond4
          have hbi : isBoldItalicName s = false := by
            simp [isBoldItalicName, hbold]
          have hbo : isBoldOnlyName s = false := by
            simp [isBoldOnlyName, hbold]
          have hio : isItalicOnlyName s = false := by
            simp [isItalicOnlyName, hital]
          split
          · exact ⟨by rw [countP_snoc_false _ _ _ hbi]; exact h1,
              by rw [countP_snoc_false _ _ _ hbo]; exact h2,
              by rw [countP_snoc_false _ _ _ hio]; exact h3⟩
          · exact ⟨h1, h2, h3⟩

theorem dedup_fold_inv : ∀ (styles : List String) (st : DedupState),
    dedupCountInv st → dedupCountInv (styles.foldl classifyStep st) := by
  intro styles
  induction styles with
  | nil => exact fun st h => h
  | cons s styles ih =>
    intro st h
    rw [List.foldl_cons]
    exact ih _ (classifyStep_counts st s h)

theorem b2n_le_one (b : Bool) : b2n b ≤ 1 := by
  cases b <;> simp [b2n]

/-- C3 amended: each of the BoldItalic, Bold and Italic buckets contributes
at most one name to the deduplicated output (first match wins, later
matches for a filled bucket are dropped); only the Regular bucket lacks
this guarantee, because its substring rule accepts every name containing
"regular". -/
theorem filter_styles_bucket_winners_unique (styles : List String) :
    (filter_useable_styles styles).countP isBoldItalicName ≤ 1 ∧
      (filter_useable_styles styles).countP isBoldOnlyName ≤ 1 ∧
      (filter_useable_styles styles).countP isItalicOnlyName ≤ 1 := by
  have hfold := dedup_fold_inv styles ⟨[], false, false, false, false⟩
    ⟨by simp, by simp, by simp⟩
  obtain ⟨hf1, hf2, hf3⟩ := hfold
  have hsub := List.take_sublist 4
    (styles.foldl classifyStep ⟨[], false, false, false, false⟩).useful
  unfold filter_useable_styles
  refine ⟨?_, ?_, ?_⟩
  · exact Nat.le_trans (hsub.countP_le _) (Nat.le_trans hf1 (b2n_le_one _))
  · exact Nat.le_trans (hsub.countP_le _) (Nat.le_trans hf2 (b2n_le_one _))
  · exact Nat.le_trans (hsub.countP_le _) (Nat.le_trans hf3 (b2n_le_one _))

/-- C7: the deduplication returns at most 4 entries for every input. -/
theorem filter_styles_length_le_four (styles : List String) :
    (filter_useable_styles styles).length ≤ 4 := by
  unfold filter_useable_styles
  exact List.length_take_le 4 _

/-! ### Label placement in the draw loop (claims C4, C6, C10) -/

theorem labelCmdFor_shape (p : DrawParams) (line : List Char) (y : Int) :
    ∀ c, labelCmdFor p line y = some c →
      isLabelCmd c = true ∧ cmdY c = y - (p.ascent - p.smallAscent) := by
  intro c h
  unfold labelCmdFor at h
  split at h
  · cases h
    exact ⟨rfl, rfl⟩
  · split at h
    · dsimp only at h
      split at h
      · cases h
        exact ⟨rfl, rfl⟩
      · cases h
        exact ⟨rfl, rfl⟩
    · cases h

theorem drawLinesGo_label_shape (p : DrawParams) :
    ∀ (lns : List (List Char)) (y : Int),
      countLabels (drawLinesGo p lns y) ≤ countLineDraws (drawLinesGo p lns y) ∧
        ∀ c ∈ drawLinesGo p lns y, isLabelCmd c = true →
          ∃ d ∈ drawLinesGo p lns y, isLabelCmd d = false ∧
            cmdY c = cmdY d - (p.ascent - p.smallAscent) := by
  intro lns
  induction lns with
  | nil =>
    intro y
    refine ⟨Nat.le_refl _, ?_⟩
    intro c hc
    simp [drawLinesGo] at hc
  | cons line rest ih =>
    intro y
    unfold drawLinesGo
    split
    · refine ⟨Nat.le_refl _, ?_⟩
      intro c hc
      simp at hc
    · obtain ⟨ihc, ihp⟩ := ih (y + p.lineSpacing)
      have hoptc : (labelCmdFor p line y).toList.countP isLabelCmd ≤ 1 := by
        cases labelCmdFor p line y with
        | none => simp [Option.toList]
        | some d =>
          simp only [Option.toList, List.countP_cons, List.countP_nil]
          split <;> omega
      constructor
      · have hhead1 : isLabelCmd (DrawCmd.line 10 y line) = false := rfl
        simp only [countLabels, countLineDraws] at ihc ⊢
        simp only [List.countP_cons, List.countP_append, hhead1, Bool.not_false,
          Bool.false_eq_true, eq_self_iff_true, if_true, if_false]
        have hnneg : 0 ≤ (labelCmdFor p line y).toList.countP fun c => !isLabelCmd c :=
          Nat.zero_le _
        omega
      · intro c hc hlab
        rcases List.mem_cons.mp hc with hc | hc
        · subst hc
          simp [isLabelCmd] at hlab
        · rcases List.mem_append.mp hc with hc | hc
          · have hsome : labelCmdFor p line y = some c := by
              cases hopt : labelCmdFor p line y with
              | none => rw [hopt] at hc; simp [Option.toList] at hc
              | some d =>
                rw [hopt] at hc
                simp only [Option.toList, List.mem_singleton] at hc
                rw [hc]
            obtain ⟨_, hy⟩ := labelCmdFor_shape p line y c hsome
            refine ⟨DrawCmd.line 10 y line, List.mem_cons_self _ _, rfl, ?_⟩
            rw [hy]
            rfl
          · obtain ⟨d, hd, hdl, hdy⟩ := ihp c hc hlab
            exact ⟨d, List.mem_cons_of_mem _ (List.mem_append_right _ hd), hdl, hdy⟩

theorem labelsPaired_of_pointwise (δ : Int) (cmds : List DrawCmd)
    (h : ∀ c ∈ cmds, isLabelCmd c = true →
      ∃ d ∈ cmds, isLabelCmd d = false ∧ cmdY c = cmdY d - δ) :
    labelsPaired δ cmds = true := by
  unfold labelsPaired
  rw [List.all_eq_true]
  intro c hc
  cases hl : isLabelCmd c with
  | false => simp
  | true =>
    simp only [hl, Bool.not_true, Bool.false_or]
    rw [List.any_eq_true]
    obtain ⟨d, hd, hdl, hy⟩ := h c hc hl
    exact ⟨d, hd, by simp [hdl, hy]⟩

/-- C4 amended: in every render pass the font-name label is drawn once per
rendered line (never more labels than drawn lines), and every label sits at
the per-line offset `y - (ascent - smallAscent)` of one of the drawn lines
of the same pass -- not only of the first line. -/
theorem label_per_drawn_line (p : DrawParams) (text : List Char) :
    countLabels (updateCachePure p text) ≤ countLineDraws (updateCachePure p text) ∧
      labelsPaired (p.ascent - p.smallAscent) (updateCachePure p text) = true := by
  have h := drawLinesGo_label_shape p (computeLines p.cw (p.rectW - 20) text)
    (if ((computeLines p.cw (p.rectW - 20) text).length * p.lineSpacing : Int) >
        p.rectH - 20 then p.ascent else 10 + p.ascent)
  exact ⟨h.1, labelsPaired_of_pointwise _ _ h.2⟩

/-- C4 counterexample: a pass whose text wraps to two drawn lines produces
two label placements (one per line), refuting "at most one label placement
per pass, against line 0 only". -/
theorem label_drawn_on_multiple_lines :
    ¬ (countLabels (updateCachePure cexDrawParams "aaaa aaaa aaaa aaaa aaaa".data) ≤ 1) := by
  decide

theorem availableWidth_eq_zero_of_collision (p : DrawParams) (line : List Char)
    (h : nameX p ≤ previewTextEnd p line + 20) : availableWidth p line = 0 := by
  unfold availableWidth
  exact max_eq_left (by omega)

theorem labelCmdFor_none_of_collision (p : DrawParams) (line : List Char) (y : Int)
    (h : nameX p ≤ previewTextEnd p line + 20) : labelCmdFor p line y = none := by
  have haw := availableWidth_eq_zero_of_collision p line h
  unfold labelCmdFor
  rw [if_neg (by omega), haw, if_neg (by omega)]

/-- C10: in the collision branch (`name_x ≤ preview_text_end + 20`) the
computed `available_width` is always 0, hence `available_width > 30` never
holds, the ellipsis-shortening path is unreachable, and no label is
drawn. -/
theorem collision_available_width_zero (p : DrawParams) (line : List Char) (y : Int)
    (h : nameX p ≤ previewTextEnd p line + 20) :
    availableWidth p line = 0 ∧ labelCmdFor p line y = none :=
  ⟨availableWidth_eq_zero_of_collision p line h,
    labelCmdFor_none_of_collision p line y h⟩

/-- Witness for `collision_available_width_zero` at a concrete colliding
layout. -/
theorem collision_available_width_zero_witness :
    nameX collisionParamsA ≤ previewTextEnd collisionParamsA "hello".data + 20 ∧
      (availableWidth collisionParamsA "hello".data = 0 ∧
        labelCmdFor collisionParamsA "hello".data 15 = none) :=
  ⟨by decide, collision_available_width_zero collisionParamsA "hello".data 15 (by decide)⟩

/-- C6: in every layout where `labelX ≤ lineEndX + 20`, the computed
`availableWidth` is at most 30 and no label is emitted; consequently every
label that the collision branch emits (there are none) fits within
`availableWidth`. -/
theorem collision_label_omitted_and_fits (p : DrawParams) (line : List Char) (y : Int)
    (h : nameX p ≤ previewTextEnd p line + 20) :
    (availableWidth p line ≤ 30 ∧ labelCmdFor p line y = none) ∧
      (labelCmdFor p line y).all
        (fun c => decide ((advL p.scw (cmdText c) : Int) ≤ availableWidth p line)) = true := by
  have haw := availableWidth_eq_zero_of_collision p line h
  have hnone := labelCmdFor_none_of_collision p line y h
  refine ⟨⟨by omega, hnone⟩, ?_⟩
  rw [hnone]
  rfl

/-- Witness for `collision_label_omitted_and_fits` at a second concrete
colliding layout. -/
theorem collision_label_omitted_and_fits_witness :
    nameX collisionParamsB ≤ previewTextEnd collisionParamsB "sample text".data + 20 ∧
      ((availableWidth collisionParamsB "sample text".data ≤ 30 ∧
        labelCmdFor collisionParamsB "sample text".data 21 = none) ∧
        (labelCmdFor collisionParamsB "sample text".data 21).all
          (fun c => decide ((advL collisionParamsB.scw (cmdText c) : Int) ≤
            availableWidth collisionParamsB "sample text".data)) = true) :=
  ⟨by decide, collision_label_omitted_and_fits collisionParamsB "sample text".data 21
    (by decide)⟩

/-! ### Pixmap cache discipline (claim C5) -/

/-- C5 counterexample: after a pass at bounds (300, 60), painting at
bounds (400, 60) changes the `bounds` field of the effective request, yet
the render function is not invoked again and the stale pixmap rendered for
the old bounds is returned. -/
theorem bounds_change_does_not_rerender :
    requestOf c5s1 (400, 60) ≠ requestOf c5s1 (300, 60) ∧
      (paintEvent (fun r => r) c5s1 (400, 60)).renders = 0 ∧
      (paintEvent (fun r => r) c5s1 (400, 60)).drawn =
        some (requestOf (initWidgetState PreviewRequest) (300, 60)) := by
  decide

/-- C5 amended: starting from an invalidated cache, two consecutive paint
passes at equal requests invoke the render function exactly once and the
second pass returns the stored pixmap unchanged; calling `set_font_info` or
`set_font_properties` (the only ways to change family, styleName, text,
size, color or weight) invalidates unconditionally, so the next pass
renders again; but changing only the bounds does not invalidate: the next
pass performs no render and returns the stored pixmap. -/
theorem cache_render_discipline (Pix : Type) (render : PreviewRequest → Pix)
    (s : WidgetState Pix) (rect rect' : Nat × Nat) (fam sty tx : String)
    (sz : Nat) (col : Nat × Nat × Nat) (wt : Nat)
    (h : s.cache_pixmap = none) :
    (paintEvent render s rect).renders = 1 ∧
      (paintEvent render (paintEvent render s rect).state rect).renders = 0 ∧
      (paintEvent render (paintEvent render s rect).state rect).drawn =
        (paintEvent render s rect).drawn ∧
      (paintEvent render
        (set_font_info (paintEvent render s rect).state fam sty tx) rect).renders = 1 ∧
      (paintEvent render
        (set_font_properties (paintEvent render s rect).state sz col wt) rect).renders = 1 ∧
      (paintEvent render (paintEvent render s rect).state rect').renders = 0 ∧
      (paintEvent render (paintEvent render s rect).state rect').drawn =
        (paintEvent render s rect).drawn := by
  simp [paintEvent, set_font_info, set_font_properties, h]

/-- Witness for `cache_render_discipline` on the freshly constructed
widget. -/
theorem cache_render_discipline_witness :
    (initWidgetState PreviewRequest).cache_pixmap = none ∧
      ((paintEvent (fun r => r) (initWidgetState PreviewRequest) (300, 60)).renders = 1 ∧
        (paintEvent (fun r => r)
          (paintEvent (fun r => r) (initWidgetState PreviewRequest) (300, 60)).state
          (300, 60)).renders = 0 ∧
        (paintEvent (fun r => r)
          (paintEvent (fun r => r) (initWidgetState PreviewRequest) (300, 60)).state
          (300, 60)).drawn =
          (paintEvent (fun r => r) (initWidgetState PreviewRequest) (300, 60)).drawn ∧
        (paintEvent (fun r => r)
          (set_font_info
            (paintEvent (fun r => r) (initWidgetState PreviewRequest) (300, 60)).state
            "Arial" "Bold" "hi") (300, 60)).renders = 1 ∧
        (paintEvent (fun r => r)
          (set_font_properties
            (paintEvent (fun r => r) (initWidgetState PreviewRequest) (300, 60)).state
            30 (1, 2, 3) 700) (300, 60)).renders = 1 ∧
        (paintEvent (fun r => r)
          (paintEvent (fun r => r) (initWidgetState PreviewRequest) (300, 60)).state
          (400, 60)).renders = 0 ∧
        (paintEvent (fun r => r)
          (paintEvent (fun r => r) (initWidgetState PreviewRequest) (300, 60)).state
          (400, 60)).drawn =
          (paintEvent (fun r => r) (initWidgetState PreviewRequest) (300, 60)).drawn) :=
  ⟨rfl, cache_render_discipline PreviewRequest (fun r => r)
    (initWidgetState PreviewRequest) (300, 60) (400, 60) "Arial" "Bold" "hi"
    30 (1, 2, 3) 700 rfl⟩

/-! ### Exception absorption in _update_cache (claim C9) -/

/-- C9: if acquiring either font-metrics object fails during a render pass,
the pass stores no pixmap (the widget then paints nothing, since
`paintEvent` only draws a non-None `cache_pixmap`), the error is logged,
and -- the model being a total function -- no exception reaches the
caller. -/
theorem update_cache_absorbs_metrics_failure (E : Type)
    (metricsE : Except E MainMetrics) (smallE : Except E SmallMetrics)
    (family style text : List Char) (rectW rectH : Int) (e : E)
    (h : metricsE = .error e ∨ ∃ m, metricsE = .ok m ∧ smallE = .error e) :
    updateCacheTry E metricsE smallE family style text rectW rectH = (none, [e]) := by
  rcases h with h | ⟨m, hm, hs⟩
  · rw [h]
    rfl
  · rw [hm, hs]
    rfl

/-- Witness for `update_cache_absorbs_metrics_failure` with a concrete
failing metrics acquisition. -/
theorem update_cache_absorbs_metrics_failure_witness :
    ((Except.error "metrics unavailable" : Except String MainMetrics) =
        Except.error "metrics unavailable" ∨
      ∃ m, (Except.error "metrics unavailable" : Except String MainMetrics) =
        Except.ok m ∧
        (Except.ok ⟨fun _ => 1, 11⟩ : Except String SmallMetrics) =
          Except.error "metrics unavailable") ∧
      updateCacheTry String (Except.error "metrics unavailable")
        (Except.ok ⟨fun _ => 1, 11⟩) "F".data "S".data "txt".data 100 60 =
        (none, ["metrics unavailable"]) :=
  ⟨Or.inl rfl, update_cache_absorbs_metrics_failure String
    (Except.error "metrics unavailable") (Except.ok ⟨fun _ => 1, 11⟩)
    "F".data "S".data "txt".data 100 60 "metrics unavailable" (Or.inl rfl)⟩

end FontPreviewer
